import Mathlib

/-!
Shallow embedding of the cudf device-side AST expression evaluator
(`cpp/include/cudf/ast/detail/expression_evaluator.cuh`).

The embedding follows the source file closely:
* `device_data_reference`, `table_reference`, `device_data_reference_type`
  and `null_equality` mirror the descriptor types consumed by the evaluator.
* Machine values are modelled as `Int`; each element-type tag (`DType`)
  carries its byte width, and intermediate storage is modelled at the byte
  level, so the `memcpy`-based store/load protocol of `resolve_output` /
  `resolve_input` is represented faithfully (payload bytes followed by a
  validity flag byte for the nullable instantiation).
* Device assertions (`cudf_assert`) and the documented undefined behaviour
  of dereferencing an absent right row index are surfaced as the error
  states of an `Except` result, so that "aborts the thread" is statable.
* The two instantiations `has_nulls = true` / `has_nulls = false` are the
  namespaces `WithNulls` and `NoNulls`.

Operator functors, `ast_operator_arity` and the result-type trait live in
`operators.hpp`, which is not part of the sources; they are modelled from
the spec (closed operator set, arity 1 or 2, comparisons produce BOOL8).
-/

namespace CudfAst

/-- Table source tags, from `table_reference` (LEFT, RIGHT, OUTPUT). -/
inductive TableReference where
  | LEFT
  | RIGHT
  | OUTPUT
deriving DecidableEq

/-- Reference kinds, from `device_data_reference_type`. -/
inductive DeviceDataReferenceType where
  | COLUMN
  | LITERAL
  | INTERMEDIATE
deriving DecidableEq

/-- Null-equality policy passed at evaluator construction (`null_equality`). -/
inductive NullEquality where
  | EQUAL
  | UNEQUAL
deriving DecidableEq

/-- Element type tags used by the plan.  The evaluator is generic over the
element type; we model the fixed-width tags it dispatches over. -/
inductive DType where
  | BOOL8
  | INT8
  | INT16
  | INT32
  | INT64
deriving DecidableEq

/-- Byte width of the representative storage type of each tag. -/
def DType.width : DType → Nat
  | .BOOL8 => 1
  | .INT8  => 1
  | .INT16 => 2
  | .INT32 => 4
  | .INT64 => 8

/-- The operand descriptor, from `detail::device_data_reference`. -/
structure DeviceDataReference where
  reference_type : DeviceDataReferenceType
  data_type : DType
  data_index : Nat
  table_source : TableReference
deriving DecidableEq

/-- Modelled from the spec: the closed operator enumeration (`ast_operator`
in `operators.hpp`, not among the sources).  A representative subset:
unary IDENTITY and NOT, binary arithmetic and comparisons including EQUAL. -/
inductive AstOperator where
  | IDENTITY
  | NOT
  | ADD
  | SUB
  | MUL
  | EQUAL
  | NOT_EQUAL
  | LESS
  | GREATER
deriving DecidableEq

/-- Modelled from the spec: `ast_operator_arity` (in `operators.hpp`). -/
def ast_operator_arity : AstOperator → Nat
  | .IDENTITY => 1
  | .NOT => 1
  | _ => 2

/-- Modelled from the spec: the unary operator functor semantics
(`operator_functor<op>` for arity-1 ops, in `operators.hpp`). -/
def unaryFunctor : AstOperator → Int → Int
  | .NOT, v => if v = 0 then 1 else 0
  | _, v => v

/-- Modelled from the spec: the binary operator functor semantics
(`operator_functor<op>` for arity-2 ops, in `operators.hpp`); booleans are
represented as 0/1 of BOOL8. -/
def binaryFunctor : AstOperator → Int → Int → Int
  | .ADD, a, b => a + b
  | .SUB, a, b => a - b
  | .MUL, a, b => a * b
  | .EQUAL, a, b => if a = b then 1 else 0
  | .NOT_EQUAL, a, b => if a = b then 0 else 1
  | .LESS, a, b => if a < b then 1 else 0
  | .GREATER, a, b => if b < a then 1 else 0
  | _, a, _ => a

/-- Modelled from the spec: the result element type of a unary operator
(`cuda::std::invoke_result_t` of the functor). -/
def unaryOutType : AstOperator → DType → DType
  | .NOT, _ => .BOOL8
  | _, t => t

/-- Modelled from the spec: the result element type of a binary operator;
comparisons produce BOOL8, arithmetic preserves the operand type. -/
def binaryOutType : AstOperator → DType → DType
  | .EQUAL, _ => .BOOL8
  | .NOT_EQUAL, _ => .BOOL8
  | .LESS, _ => .BOOL8
  | .GREATER, _ => .BOOL8
  | _, t => t

/-- One input column modelled as its element values plus its validity mask
(`column_device_view::element` / `column_device_view::is_valid`). -/
structure Column where
  vals : Nat → Int
  mask : Nat → Bool

/-- Fallback column for out-of-bounds column ordinals (a well-formed plan
never reaches it). -/
def defaultColumn : Column := ⟨fun _ => 0, fun _ => true⟩

/-- A device table view: an ordered sequence of columns. -/
def Table := List Column

/-- The device view of a compiled plan, from `expression_device_view`:
literal array, data-reference table, operator sequence and the
operand-index stream (`operator_source_indices`). -/
structure ExpressionDeviceView where
  literals : List Int
  data_references : List DeviceDataReference
  operators : List AstOperator
  operator_source_indices : List Nat

/-- Fallback data reference for out-of-bounds stream entries. -/
def defaultRef : DeviceDataReference :=
  ⟨.LITERAL, .INT64, 0, .LEFT⟩

/-- Failure states of device evaluation: `assertFail` models `cudf_assert`
aborting the thread, `undef` models undefined behaviour (dereferencing an
absent `thrust::optional` right row index). -/
inductive EvalErr where
  | assertFail
  | undef
deriving DecidableEq

/-- Device computation result. -/
abbrev Res (α : Type) := Except EvalErr α

/- ## Byte-level model of intermediate storage

`resolve_output` stores a result into an intermediate slot with `memcpy`
of `sizeof(possibly_null_value_t<Element, has_nulls>)` bytes, and
`resolve_input` loads it back the same way.  We model a slot as a byte
list; values are serialized little-endian with two's complement. -/

/-- Little-endian base-256 digits of `n`, exactly `w` bytes. -/
def natToBytes : Nat → Nat → List Nat
  | 0, _ => []
  | w + 1, n => n % 256 :: natToBytes w (n / 256)

/-- Reassemble a little-endian byte list into a natural number. -/
def bytesFold (bs : List Nat) : Nat :=
  bs.foldr (fun b acc => b + 256 * acc) 0

/-- Two's-complement serialization of an integer into `w` bytes. -/
def intToBytes (w : Nat) (a : Int) : List Nat :=
  natToBytes w ((a % ((256 : Int) ^ w)).toNat)

/-- Two's-complement deserialization of `w` bytes. -/
def bytesToInt (w : Nat) (bs : List Nat) : Int :=
  if 2 * bytesFold bs < 256 ^ w then (bytesFold bs : Int)
  else (bytesFold bs : Int) - (256 : Int) ^ w

/-- `a` is representable in `w` bytes of two's complement. -/
def intInRange (w : Nat) (a : Int) : Prop :=
  -((256 : Int) ^ w) ≤ 2 * a ∧ 2 * a < (256 : Int) ^ w

instance (w : Nat) (a : Int) : Decidable (intInRange w a) := by
  unfold intInRange; infer_instance

theorem natToBytes_length (w n : Nat) : (natToBytes w n).length = w := by
  induction w generalizing n with
  | zero => rfl
  | succ w ih => simp [natToBytes, ih]

theorem bytesFold_cons (b : Nat) (bs : List Nat) :
    bytesFold (b :: bs) = b + 256 * bytesFold bs := rfl

theorem bytesFold_natToBytes (w n : Nat) :
    bytesFold (natToBytes w n) = n % 256 ^ w := by
  induction w generalizing n with
  | zero => simp [natToBytes, bytesFold, Nat.mod_one]
  | succ w ih =>
    rw [natToBytes, bytesFold_cons, ih, pow_succ, mul_comm (256 ^ w) 256,
      Nat.mod_mul]

/-- Serialization round-trip: deserializing the bytes of an in-range
integer recovers it. -/
theorem bytesToInt_intToBytes (w : Nat) (a : Int) (h : intInRange w a) :
    bytesToInt w (intToBytes w a) = a := by
  obtain ⟨h1, h2⟩ := h
  have hMpos : (0 : Int) < (256 : Int) ^ w := by positivity
  have hr0 : 0 ≤ a % (256 : Int) ^ w := Int.emod_nonneg a (ne_of_gt hMpos)
  have hrM : a % (256 : Int) ^ w < (256 : Int) ^ w := Int.emod_lt_of_pos a hMpos
  have hcast : ((256 ^ w : Nat) : Int) = (256 : Int) ^ w := by push_cast; ring
  have hlt : (a % ((256 : Int) ^ w)).toNat < 256 ^ w := by omega
  have hfold : bytesFold (natToBytes w ((a % ((256 : Int) ^ w)).toNat)) =
      (a % ((256 : Int) ^ w)).toNat := by
    rw [bytesFold_natToBytes]
    exact Nat.mod_eq_of_lt hlt
  rcases le_or_lt 0 a with hpos | hneg
  · have haM : a < (256 : Int) ^ w := by omega
    have hra : a % (256 : Int) ^ w = a := Int.emod_eq_of_lt hpos haM
    simp only [bytesToInt, intToBytes, hfold]
    omega
  · have haM : -((256 : Int) ^ w) < a := by omega
    have hshift : (a + (256 : Int) ^ w) % (256 : Int) ^ w = a % (256 : Int) ^ w := by
      have h3 := Int.add_mul_emod_self_left (a := a) (b := (256 : Int) ^ w) (c := 1)
      simp only [mul_one] at h3
      exact h3
    have hra : a % (256 : Int) ^ w = a + (256 : Int) ^ w := by
      rw [← hshift]
      exact Int.emod_eq_of_lt (by omega) (by omega)
    simp only [bytesToInt, intToBytes, hfold]
    omega

/-- Per-thread intermediate storage: each slot is the byte image left by
the last `memcpy` into it (`thread_intermediate_storage`). -/
def Store := Nat → List Nat

/-- Overwrite one intermediate slot
(`thread_intermediate_storage[data_index] = tmp`). -/
def updateStore (s : Store) (i : Nat) (bytes : List Nat) : Store :=
  fun j => if j = i then bytes else s j

/-- Size in bytes of `IntermediateDataType<true>`
(`thrust::optional` of a 64-bit integer): payload, flag, padding. -/
def slotSize : Nat := 16

namespace WithNulls

/-!  The `has_nulls = true` instantiation: operand and result values are
`possibly_null_value_t<Element, true> = thrust::optional<Element>`,
modelled as `Option Int`. -/

open CudfAst

/-- Byte image of `thrust::optional<Element>`: `Element.width` payload
bytes followed by one flag byte (1 = engaged, 0 = empty; the payload of
an empty optional is unspecified, modelled as zero bytes). -/
def encodePN (dt : DType) (v : Option Int) : List Nat :=
  match v with
  | some a => intToBytes dt.width a ++ [1]
  | none => List.replicate dt.width 0 ++ [0]

/-- Number of bytes `memcpy` moves for
`possibly_null_value_t<Element, true>`. -/
def encLenPN (dt : DType) : Nat := dt.width + 1

/-- Reinterpret the leading `encLenPN dt` bytes of a slot as
`thrust::optional<Element>` (the load half of the `memcpy` protocol). -/
def decodePN (dt : DType) (slot : List Nat) : Option Int :=
  if (slot.drop dt.width).headD 0 = 0 then none
  else some (bytesToInt dt.width (slot.take dt.width))

/-- The value is representable in the element type (automatic in C++,
where the result already has type `Element`). -/
def pnInRange (dt : DType) : Option Int → Prop
  | none => True
  | some a => intInRange dt.width a

instance (dt : DType) (v : Option Int) : Decidable (pnInRange dt v) := by
  cases v <;> unfold pnInRange <;> infer_instance

/-- Resolves an input data reference into a value
(`expression_evaluator<true>::resolve_input`).  `Element` is the
compile-time dispatch type.  A `RIGHT` (or `OUTPUT`) column reference
dereferences `right_row_index`, which is undefined behaviour when the
caller did not supply one (the source comment documents this). -/
def resolve_input (left right : Table) (literals : List Int) (store : Store)
    (Element : DType) (r : DeviceDataReference)
    (left_row_index : Nat) (right_row_index : Option Nat) : Res (Option Int) :=
  match r.reference_type with
  | .COLUMN =>
    match (if r.table_source = .LEFT then Except.ok left_row_index
           else match right_row_index with
                | some j => Except.ok j
                | none => Except.error EvalErr.undef) with
    | .error e => .error e
    | .ok row_index =>
      match (if r.table_source = .LEFT then left else right).getD r.data_index
          defaultColumn with
      | col =>
        if col.mask row_index then .ok (some (col.vals row_index))
        else .ok none
  | .LITERAL => .ok (some (literals.getD r.data_index 0))
  | .INTERMEDIATE => .ok (decodePN Element (store r.data_index))

/-- Resolves an output data reference and assigns the result value
(`expression_output_handler::resolve_output`), generic over the sink
(`OutputType`): a COLUMN reference goes to `sink.set_value<Element>`, an
INTERMEDIATE reference is `memcpy`ed into the slot (the bytes beyond the
copied size keep their unspecified contents, modelled as zero). -/
def resolve_output {σ : Type} (setVal : DType → Nat → Option Int → σ → σ)
    (sink : σ) (store : Store) (Element : DType)
    (r : DeviceDataReference) (row_index : Nat) (result : Option Int) :
    σ × Store :=
  if r.reference_type = .COLUMN then
    (setVal Element row_index result sink, store)
  else
    (sink, updateStore store r.data_index
      (encodePN Element result ++ List.replicate (slotSize - encLenPN Element) 0))

/-- The unary handler's result
(`unary_expression_output_handler::operator()`, `has_nulls` branch):
propagate an absent operand, otherwise apply the operator functor. -/
def unaryOpResult (op : AstOperator) (input : Option Int) : Option Int :=
  match input with
  | some v => some (unaryFunctor op v)
  | none => none

/-- The binary handler's result
(`binary_expression_output_handler::operator()`, `has_nulls` branch):
EQUAL consults `compare_nulls` when both operands are absent, computes
when both are present, and propagates otherwise; every other operator
propagates an absent operand. -/
def binaryOpResult (compare_nulls : NullEquality) (op : AstOperator)
    (lhs rhs : Option Int) : Option Int :=
  if op = .EQUAL then
    match lhs, rhs with
    | none, none => some (if compare_nulls = .EQUAL then 1 else 0)
    | some a, some b => some (binaryFunctor op a b)
    | _, _ => none
  else
    match lhs, rhs with
    | some a, some b => some (binaryFunctor op a b)
    | _, _ => none

/-- Dispatch pair chosen by `single_dispatch_binary_operator`: the
non-deduced template parameter `LHS` is used for both operand positions
(`f.template operator()<LHS, LHS>`). -/
def single_dispatch_binary_operator (lhs_type : DType) : DType × DType :=
  (lhs_type, lhs_type)

/-- One unary step of `evaluate`: the input row is chosen from the
operand's `table_source`, then `operator()(output_object,
input_row_index, input, output, output_row_index, op)` resolves the
input — passing `input_row_index` as the *left* row index and no right
row index — applies the handler and resolves the output. -/
def unaryStep {σ : Type} (setVal : DType → Nat → Option Int → σ → σ)
    (left right : Table) (literals : List Int)
    (input output : DeviceDataReference)
    (left_row_index right_row_index output_row_index : Nat)
    (op : AstOperator) (sink : σ) (store : Store) : Res (σ × Store) :=
  match resolve_input left right literals store input.data_type input
      (if input.table_source = .LEFT then left_row_index else right_row_index)
      none with
  | .error e => .error e
  | .ok typed_input =>
    .ok (resolve_output setVal sink store (unaryOutType op input.data_type)
      output output_row_index (unaryOpResult op typed_input))

/-- One binary step of `evaluate`: `type_dispatcher` on the left
operand's `data_type` through `single_dispatch_binary_operator`, both
operands resolved at that type, handler applied, output resolved. -/
def binaryStep {σ : Type} (setVal : DType → Nat → Option Int → σ → σ)
    (left right : Table) (literals : List Int)
    (compare_nulls : NullEquality) (lhs rhs output : DeviceDataReference)
    (left_row_index right_row_index output_row_index : Nat)
    (op : AstOperator) (sink : σ) (store : Store) : Res (σ × Store) :=
  match single_dispatch_binary_operator lhs.data_type with
  | (tl, tr) =>
    match resolve_input left right literals store tl lhs
        left_row_index (some right_row_index) with
    | .error e => .error e
    | .ok typed_lhs =>
      match resolve_input left right literals store tr rhs
          left_row_index (some right_row_index) with
      | .error e => .error e
      | .ok typed_rhs =>
        .ok (resolve_output setVal sink store (binaryOutType op tl)
          output output_row_index (binaryOpResult compare_nulls op typed_lhs typed_rhs))

/-- The operator loop of `expression_evaluator<true>::evaluate`,
consuming the operand-index stream from `cursor` on. -/
def evalOps {σ : Type} (setVal : DType → Nat → Option Int → σ → σ)
    (left right : Table) (plan : ExpressionDeviceView)
    (compare_nulls : NullEquality)
    (ops : List AstOperator) (cursor : Nat)
    (left_row_index right_row_index output_row_index : Nat)
    (sink : σ) (store : Store) : Res (σ × Store) :=
  match ops with
  | [] => .ok (sink, store)
  | op :: rest =>
    if ast_operator_arity op = 1 then
      match unaryStep setVal left right plan.literals
          (plan.data_references.getD (plan.operator_source_indices.getD cursor 0) defaultRef)
          (plan.data_references.getD (plan.operator_source_indices.getD (cursor + 1) 0) defaultRef)
          left_row_index right_row_index output_row_index op sink store with
      | .error e => .error e
      | .ok (sink', store') =>
        evalOps setVal left right plan compare_nulls rest (cursor + 2)
          left_row_index right_row_index output_row_index sink' store'
    else if ast_operator_arity op = 2 then
      match binaryStep setVal left right plan.literals compare_nulls
          (plan.data_references.getD (plan.operator_source_indices.getD cursor 0) defaultRef)
          (plan.data_references.getD (plan.operator_source_indices.getD (cursor + 1) 0) defaultRef)
          (plan.data_references.getD (plan.operator_source_indices.getD (cursor + 2) 0) defaultRef)
          left_row_index right_row_index output_row_index op sink store with
      | .error e => .error e
      | .ok (sink', store') =>
        evalOps setVal left right plan compare_nulls rest (cursor + 3)
          left_row_index right_row_index output_row_index sink' store'
    else .error .assertFail

/-- `expression_evaluator<true>::evaluate(output_object, left_row_index,
right_row_index, output_row_index)`. -/
def evaluate {σ : Type} (setVal : DType → Nat → Option Int → σ → σ)
    (left right : Table) (plan : ExpressionDeviceView)
    (compare_nulls : NullEquality) (sink : σ) (store : Store)
    (left_row_index right_row_index output_row_index : Nat) : Res (σ × Store) :=
  evalOps setVal left right plan compare_nulls plan.operators 0
    left_row_index right_row_index output_row_index sink store

/-- `expression_evaluator<true>::evaluate(output_object, row_index)`:
the single-row-index shorthand. -/
def evaluateRow {σ : Type} (setVal : DType → Nat → Option Int → σ → σ)
    (left right : Table) (plan : ExpressionDeviceView)
    (compare_nulls : NullEquality) (sink : σ) (store : Store)
    (row_index : Nat) : Res (σ × Store) :=
  evaluate setVal left right plan compare_nulls sink store
    row_index row_index row_index

end WithNulls

namespace NoNulls

/-!  The `has_nulls = false` instantiation: `possibly_null_value_t`
degrades to the plain element type.  `resolve_input` reads
`table.column(i).element<Element>(row)` directly — the validity mask is
never consulted — and the handlers apply the functor unconditionally. -/

open CudfAst

/-- Byte image of a plain `Element` value. -/
def encodeNN (dt : DType) (v : Int) : List Nat :=
  intToBytes dt.width v

/-- Reinterpret the leading bytes of a slot as a plain `Element`. -/
def decodeNN (dt : DType) (slot : List Nat) : Int :=
  bytesToInt dt.width (slot.take dt.width)

/-- Size in bytes of `IntermediateDataType<false>` (a 64-bit integer). -/
def slotSizeNN : Nat := 8

/-- `expression_evaluator<false>::resolve_input`: no null check is
generated; the element is returned unconditionally. -/
def resolve_input (left right : Table) (literals : List Int) (store : Store)
    (Element : DType) (r : DeviceDataReference)
    (left_row_index : Nat) (right_row_index : Option Nat) : Res Int :=
  match r.reference_type with
  | .COLUMN =>
    match (if r.table_source = .LEFT then Except.ok left_row_index
           else match right_row_index with
                | some j => Except.ok j
                | none => Except.error EvalErr.undef) with
    | .error e => .error e
    | .ok row_index =>
      .ok (((if r.table_source = .LEFT then left else right).getD r.data_index
        defaultColumn).vals row_index)
  | .LITERAL => .ok (literals.getD r.data_index 0)
  | .INTERMEDIATE => .ok (decodeNN Element (store r.data_index))

/-- `resolve_output` for the null-free instantiation. -/
def resolve_output {σ : Type} (setVal : DType → Nat → Int → σ → σ)
    (sink : σ) (store : Store) (Element : DType)
    (r : DeviceDataReference) (row_index : Nat) (result : Int) : σ × Store :=
  if r.reference_type = .COLUMN then
    (setVal Element row_index result sink, store)
  else
    (sink, updateStore store r.data_index
      (encodeNN Element result ++ List.replicate (slotSizeNN - Element.width) 0))

/-- One unary step of `evaluate<false>`. -/
def unaryStep {σ : Type} (setVal : DType → Nat → Int → σ → σ)
    (left right : Table) (literals : List Int)
    (input output : DeviceDataReference)
    (left_row_index right_row_index output_row_index : Nat)
    (op : AstOperator) (sink : σ) (store : Store) : Res (σ × Store) :=
  match resolve_input left right literals store input.data_type input
      (if input.table_source = .LEFT then left_row_index else right_row_index)
      none with
  | .error e => .error e
  | .ok typed_input =>
    .ok (resolve_output setVal sink store (unaryOutType op input.data_type)
      output output_row_index (unaryFunctor op typed_input))

/-- One binary step of `evaluate<false>`: no null logic, no use of
`compare_nulls` — the functor is applied directly. -/
def binaryStep {σ : Type} (setVal : DType → Nat → Int → σ → σ)
    (left right : Table) (literals : List Int)
    (lhs rhs output : DeviceDataReference)
    (left_row_index right_row_index output_row_index : Nat)
    (op : AstOperator) (sink : σ) (store : Store) : Res (σ × Store) :=
  match WithNulls.single_dispatch_binary_operator lhs.data_type with
  | (tl, tr) =>
    match resolve_input left right literals store tl lhs
        left_row_index (some right_row_index) with
    | .error e => .error e
    | .ok typed_lhs =>
      match resolve_input left right literals store tr rhs
          left_row_index (some right_row_index) with
      | .error e => .error e
      | .ok typed_rhs =>
        .ok (resolve_output setVal sink store (binaryOutType op tl)
          output output_row_index (binaryFunctor op typed_lhs typed_rhs))

/-- The operator loop of `expression_evaluator<false>::evaluate`. -/
def evalOps {σ : Type} (setVal : DType → Nat → Int → σ → σ)
    (left right : Table) (plan : ExpressionDeviceView)
    (ops : List AstOperator) (cursor : Nat)
    (left_row_index right_row_index output_row_index : Nat)
    (sink : σ) (store : Store) : Res (σ × Store) :=
  match ops with
  | [] => .ok (sink, store)
  | op :: rest =>
    if ast_operator_arity op = 1 then
      match unaryStep setVal left right plan.literals
          (plan.data_references.getD (plan.operator_source_indices.getD cursor 0) defaultRef)
          (plan.data_references.getD (plan.operator_source_indices.getD (cursor + 1) 0) defaultRef)
          left_row_index right_row_index output_row_index op sink store with
      | .error e => .error e
      | .ok (sink', store') =>
        evalOps setVal left right plan rest (cursor + 2)
          left_row_index right_row_index output_row_index sink' store'
    else if ast_operator_arity op = 2 then
      match binaryStep setVal left right plan.literals
          (plan.data_references.getD (plan.operator_source_indices.getD cursor 0) defaultRef)
          (plan.data_references.getD (plan.operator_source_indices.getD (cursor + 1) 0) defaultRef)
          (plan.data_references.getD (plan.operator_source_indices.getD (cursor + 2) 0) defaultRef)
          left_row_index right_row_index output_row_index op sink store with
      | .error e => .error e
      | .ok (sink', store') =>
        evalOps setVal left right plan rest (cursor + 3)
          left_row_index right_row_index output_row_index sink' store'
    else .error .assertFail

/-- `expression_evaluator<false>::evaluate(output_object,
left_row_index, right_row_index, output_row_index)`. -/
def evaluate {σ : Type} (setVal : DType → Nat → Int → σ → σ)
    (left right : Table) (plan : ExpressionDeviceView)
    (sink : σ) (store : Store)
    (left_row_index right_row_index output_row_index : Nat) : Res (σ × Store) :=
  evalOps setVal left right plan plan.operators 0
    left_row_index right_row_index output_row_index sink store

/-- `expression_evaluator<false>::evaluate(output_object, row_index)`. -/
def evaluateRow {σ : Type} (setVal : DType → Nat → Int → σ → σ)
    (left right : Table) (plan : ExpressionDeviceView)
    (sink : σ) (store : Store) (row_index : Nat) : Res (σ × Store) :=
  evaluate setVal left right plan sink store row_index row_index row_index

end NoNulls

/-!  ## The scalar sink (`value_expression_result<T, true>`)

It owns one `possibly_null_value_t<T, true>` (`_obj`), modelled as
`Option Int` together with its container element type `T`. -/

/-- `value_expression_result<T, true>::set_value<Element>(index, result)`:
stores the result when `Element` matches the container type `T`
(the index is not used), asserts otherwise. -/
def value_set_value (T Element : DType) (_index : Nat) (result : Option Int)
    (_obj : Option Int) : Res (Option Int) :=
  if Element = T then .ok result else .error .assertFail

/-- `value_expression_result<T, true>::is_valid()`. -/
def value_is_valid (_obj : Option Int) : Bool :=
  _obj.isSome

/-- `value_expression_result<T, true>::value()`: dereferences `_obj`;
undefined when invalid (callers must check `is_valid` first), so the
empty case is modelled by an arbitrary fixed value. -/
def value_value (_obj : Option Int) : Int :=
  _obj.getD 0

/-!  ## Helper lemmas  -/

theorem drop_len_append (l₁ l₂ : List Nat) (w : Nat) (hw : l₁.length = w) :
    (l₁ ++ l₂).drop w = l₂ := by
  subst hw
  exact List.drop_left l₁ l₂

theorem take_len_append (l₁ l₂ : List Nat) (w : Nat) (hw : l₁.length = w) :
    (l₁ ++ l₂).take w = l₁ := by
  subst hw
  exact List.take_left l₁ l₂

/-- Decoding the byte image of an in-range possibly-null value recovers
it, whatever bytes follow the copied region. -/
theorem decodePN_encodePN (dt : DType) (v : Option Int)
    (h : WithNulls.pnInRange dt v) (extra : List Nat) :
    WithNulls.decodePN dt (WithNulls.encodePN dt v ++ extra) = v := by
  cases v with
  | none =>
    have hlen : (List.replicate dt.width (0 : Nat)).length = dt.width :=
      List.length_replicate dt.width 0
    simp only [WithNulls.decodePN, WithNulls.encodePN, List.append_assoc]
    rw [drop_len_append _ _ _ hlen]
    simp
  | some a =>
    have hlen : (intToBytes dt.width a).length = dt.width := natToBytes_length _ _
    simp only [WithNulls.decodePN, WithNulls.encodePN, List.append_assoc]
    rw [drop_len_append _ _ _ hlen, take_len_append _ _ _ hlen]
    simp only [List.singleton_append, List.headD_cons]
    rw [if_neg one_ne_zero, bytesToInt_intToBytes dt.width a h]

/-- An intermediate slot read back immediately after being written. -/
theorem updateStore_same (s : Store) (i : Nat) (bytes : List Nat) :
    updateStore s i bytes i = bytes := by
  simp [updateStore]

/-- Two tables that agree element-wise (masks may differ). -/
def sameVals (t t' : Table) : Prop :=
  ∀ i, (t.getD i defaultColumn).vals = (t'.getD i defaultColumn).vals

/-- `resolve_input<false>` reads only element values, never masks. -/
theorem NoNulls.resolve_input_congr_vals
    (left left' right right' : Table) (hL : sameVals left left')
    (hR : sameVals right right') (literals : List Int) (store : Store)
    (T : DType) (r : DeviceDataReference) (lri : Nat) (rri : Option Nat) :
    NoNulls.resolve_input left right literals store T r lri rri =
    NoNulls.resolve_input left' right' literals store T r lri rri := by
  unfold NoNulls.resolve_input
  cases hrt : r.reference_type with
  | COLUMN =>
    by_cases h : r.table_source = .LEFT
    · have hv := hL r.data_index
      simp only [List.getD, List.get?_eq_getElem?] at hv
      simp [h, hv]
    · cases rri with
      | none => simp [h]
      | some j =>
        have hv := hR r.data_index
        simp only [List.getD, List.get?_eq_getElem?] at hv
        simp [h, hv]
  | LITERAL => rfl
  | INTERMEDIATE => rfl

/-- `resolve_input` (either instantiation) never reads the declared
`data_type` of the reference it resolves; only the dispatch type
`Element` matters. -/
theorem WithNulls.resolve_input_data_type_irrel
    (left right : Table) (literals : List Int) (store : Store) (T : DType)
    (rt : DeviceDataReferenceType) (d d' : DType) (idx : Nat)
    (ts : TableReference) (lri : Nat) (rri : Option Nat) :
    WithNulls.resolve_input left right literals store T ⟨rt, d, idx, ts⟩ lri rri =
    WithNulls.resolve_input left right literals store T ⟨rt, d', idx, ts⟩ lri rri := by
  cases rt <;> rfl

/-- A unary step of the null-free evaluator reads only element values. -/
theorem NoNulls.unaryStep_congr_vals (σ : Type)
    (setVal : DType → Nat → Int → σ → σ)
    (left left' right right' : Table) (hL : sameVals left left')
    (hR : sameVals right right') (literals : List Int)
    (input output : DeviceDataReference) (lri rri ori : Nat)
    (op : AstOperator) (sink : σ) (store : Store) :
    NoNulls.unaryStep setVal left right literals input output
      lri rri ori op sink store =
    NoNulls.unaryStep setVal left' right' literals input output
      lri rri ori op sink store := by
  unfold NoNulls.unaryStep
  rw [NoNulls.resolve_input_congr_vals left left' right right' hL hR literals
    store input.data_type input _ none]

/-- A binary step of the null-free evaluator reads only element values. -/
theorem NoNulls.binaryStep_congr_vals (σ : Type)
    (setVal : DType → Nat → Int → σ → σ)
    (left left' right right' : Table) (hL : sameVals left left')
    (hR : sameVals right right') (literals : List Int)
    (lhs rhs output : DeviceDataReference) (lri rri ori : Nat)
    (op : AstOperator) (sink : σ) (store : Store) :
    NoNulls.binaryStep setVal left right literals lhs rhs output
      lri rri ori op sink store =
    NoNulls.binaryStep setVal left' right' literals lhs rhs output
      lri rri ori op sink store := by
  unfold NoNulls.binaryStep
  simp only [WithNulls.single_dispatch_binary_operator]
  rw [NoNulls.resolve_input_congr_vals left left' right right' hL hR literals
    store lhs.data_type lhs lri (some rri)]
  cases NoNulls.resolve_input left' right' literals store lhs.data_type lhs
      lri (some rri) with
  | error e => rfl
  | ok typed_lhs =>
    rw [NoNulls.resolve_input_congr_vals left left' right right' hL hR literals
      store lhs.data_type rhs lri (some rri)]

/-- The null-free operator loop reads only element values. -/
theorem NoNulls.evalOps_congr_vals (σ : Type)
    (setVal : DType → Nat → Int → σ → σ)
    (left left' right right' : Table) (hL : sameVals left left')
    (hR : sameVals right right') (plan : ExpressionDeviceView)
    (ops : List AstOperator) :
    ∀ (cursor lri rri ori : Nat) (sink : σ) (store : Store),
    NoNulls.evalOps setVal left right plan ops cursor lri rri ori sink store =
    NoNulls.evalOps setVal left' right' plan ops cursor lri rri ori sink store := by
  induction ops with
  | nil => intros; rfl
  | cons op rest ih =>
    intro cursor lri rri ori sink store
    unfold NoNulls.evalOps
    by_cases h1 : ast_operator_arity op = 1
    · simp only [if_pos h1]
      rw [NoNulls.unaryStep_congr_vals σ setVal left left' right right' hL hR
        plan.literals _ _ lri rri ori op sink store]
      cases NoNulls.unaryStep setVal left' right' plan.literals
          (plan.data_references.getD (plan.operator_source_indices.getD cursor 0) defaultRef)
          (plan.data_references.getD (plan.operator_source_indices.getD (cursor + 1) 0) defaultRef)
          lri rri ori op sink store with
      | error e => rfl
      | ok p =>
        cases p with
        | mk sink' store' => exact ih (cursor + 2) lri rri ori sink' store'
    · by_cases h2 : ast_operator_arity op = 2
      · simp only [if_neg h1, if_pos h2]
        rw [NoNulls.binaryStep_congr_vals σ setVal left left' right right' hL hR
          plan.literals _ _ _ lri rri ori op sink store]
        cases NoNulls.binaryStep setVal left' right' plan.literals
            (plan.data_references.getD (plan.operator_source_indices.getD cursor 0) defaultRef)
            (plan.data_references.getD (plan.operator_source_indices.getD (cursor + 1) 0) defaultRef)
            (plan.data_references.getD (plan.operator_source_indices.getD (cursor + 2) 0) defaultRef)
            lri rri ori op sink store with
        | error e => rfl
        | ok p =>
          cases p with
          | mk sink' store' => exact ih (cursor + 3) lri rri ori sink' store'
      · simp only [if_neg h1, if_neg h2]

/-- The binary handler consults `compare_nulls` only for EQUAL. -/
theorem WithNulls.binaryOpResult_policy_irrel (p p' : NullEquality)
    (op : AstOperator) (h : op ≠ .EQUAL) (lhs rhs : Option Int) :
    WithNulls.binaryOpResult p op lhs rhs =
    WithNulls.binaryOpResult p' op lhs rhs := by
  simp [WithNulls.binaryOpResult, h]

/-- A binary step with a non-EQUAL operator ignores the policy. -/
theorem WithNulls.binaryStep_policy_irrel (σ : Type)
    (setVal : DType → Nat → Option Int → σ → σ)
    (left right : Table) (literals : List Int) (p p' : NullEquality)
    (lhs rhs output : DeviceDataReference) (lri rri ori : Nat)
    (op : AstOperator) (h : op ≠ .EQUAL) (sink : σ) (store : Store) :
    WithNulls.binaryStep setVal left right literals p lhs rhs output
      lri rri ori op sink store =
    WithNulls.binaryStep setVal left right literals p' lhs rhs output
      lri rri ori op sink store := by
  unfold WithNulls.binaryStep
  simp only [WithNulls.single_dispatch_binary_operator]
  cases WithNulls.resolve_input left right literals store lhs.data_type lhs
      lri (some rri) with
  | error e => rfl
  | ok typed_lhs =>
    cases WithNulls.resolve_input left right literals store lhs.data_type rhs
        lri (some rri) with
    | error e => rfl
    | ok typed_rhs =>
      exact congrArg (fun r => Except.ok (WithNulls.resolve_output setVal sink
        store (binaryOutType op lhs.data_type) output ori r))
        (WithNulls.binaryOpResult_policy_irrel p p' op h typed_lhs typed_rhs)

/-- The operator loop ignores the policy when no EQUAL is present. -/
theorem WithNulls.evalOps_policy_irrel (σ : Type)
    (setVal : DType → Nat → Option Int → σ → σ)
    (left right : Table) (plan : ExpressionDeviceView) (p p' : NullEquality)
    (ops : List AstOperator) (h : AstOperator.EQUAL ∉ ops) :
    ∀ (cursor lri rri ori : Nat) (sink : σ) (store : Store),
    WithNulls.evalOps setVal left right plan p ops cursor lri rri ori sink store =
    WithNulls.evalOps setVal left right plan p' ops cursor lri rri ori sink store := by
  induction ops with
  | nil => intros; rfl
  | cons op rest ih =>
    have hop : op ≠ .EQUAL := by
      rintro rfl; exact h (List.mem_cons_self _ _)
    have hrest : AstOperator.EQUAL ∉ rest := fun hm => h (List.mem_cons_of_mem _ hm)
    intro cursor lri rri ori sink store
    unfold WithNulls.evalOps
    by_cases h1 : ast_operator_arity op = 1
    · simp only [if_pos h1]
      cases WithNulls.unaryStep setVal left right plan.literals
          (plan.data_references.getD (plan.operator_source_indices.getD cursor 0) defaultRef)
          (plan.data_references.getD (plan.operator_source_indices.getD (cursor + 1) 0) defaultRef)
          lri rri ori op sink store with
      | error e => rfl
      | ok q =>
        cases q with
        | mk sink' store' => exact ih hrest (cursor + 2) lri rri ori sink' store'
    · by_cases h2 : ast_operator_arity op = 2
      · simp only [if_neg h1, if_pos h2]
        rw [WithNulls.binaryStep_policy_irrel σ setVal left right plan.literals
          p p' _ _ _ lri rri ori op hop sink store]
        cases WithNulls.binaryStep setVal left right plan.literals p'
            (plan.data_references.getD (plan.operator_source_indices.getD cursor 0) defaultRef)
            (plan.data_references.getD (plan.operator_source_indices.getD (cursor + 1) 0) defaultRef)
            (plan.data_references.getD (plan.operator_source_indices.getD (cursor + 2) 0) defaultRef)
            lri rri ori op sink store with
        | error e => rfl
        | ok q =>
          cases q with
          | mk sink' store' => exact ih hrest (cursor + 3) lri rri ori sink' store'
      · simp only [if_neg h1, if_neg h2]

/-!  ## Claim theorems  -/

/-- C1: for the equality operator with `has_nulls = true`, the result is
determined by the null-equality policy: both operands absent gives a
present result whose value is `policy = EQUAL`; exactly one absent gives
an absent result; both present gives a present result with value
`lhs = rhs`. -/
theorem c1_equal_null_policy (p : NullEquality) (a b : Int) :
    WithNulls.binaryOpResult p .EQUAL none none =
      some (if p = .EQUAL then 1 else 0) ∧
    WithNulls.binaryOpResult p .EQUAL (some a) none = none ∧
    WithNulls.binaryOpResult p .EQUAL none (some b) = none ∧
    WithNulls.binaryOpResult p .EQUAL (some a) (some b) =
      some (if a = b then 1 else 0) :=
  ⟨rfl, rfl, rfl, rfl⟩

/-- C2: for every operator other than EQUAL, with `has_nulls = true`, an
absent operand makes the result absent, and all-present operands give a
present result with the functor applied to the operand values. -/
theorem c2_null_propagation (p : NullEquality) (op : AstOperator)
    (h : op ≠ .EQUAL) :
    WithNulls.unaryOpResult op none = none ∧
    (∀ v : Int, WithNulls.unaryOpResult op (some v) =
      some (unaryFunctor op v)) ∧
    (∀ rhs : Option Int, WithNulls.binaryOpResult p op none rhs = none) ∧
    (∀ lhs : Option Int, WithNulls.binaryOpResult p op lhs none = none) ∧
    (∀ a b : Int, WithNulls.binaryOpResult p op (some a) (some b) =
      some (binaryFunctor op a b)) := by
  refine ⟨rfl, fun v => rfl, ?_, ?_, fun a b => by simp [WithNulls.binaryOpResult, h]⟩
  · intro rhs
    cases rhs <;> simp [WithNulls.binaryOpResult, h]
  · intro lhs
    cases lhs <;> simp [WithNulls.binaryOpResult, h]

theorem c2_null_propagation_witness :
    WithNulls.unaryOpResult .NOT none = none ∧
    WithNulls.binaryOpResult .EQUAL .ADD (some 2) none = none :=
  ⟨(c2_null_propagation .EQUAL .NOT (by decide)).1,
   (c2_null_propagation .EQUAL .ADD (by decide)).2.2.2.1 (some 2)⟩

/-- C3 (counterexample): resolving an input COLUMN reference whose
`table_source` is OUTPUT does not trigger a device assertion — it
resolves to an ordinary value (the code has only a TODO remarking the
missing check). -/
theorem c3_output_assertion_counterexample :
    WithNulls.resolve_input [defaultColumn] [⟨fun _ => 7, fun _ => true⟩] []
      (fun _ => []) .INT32 ⟨.COLUMN, .INT32, 0, .OUTPUT⟩ 0 (some 1) =
      .ok (some 7) ∧
    WithNulls.resolve_input [defaultColumn] [⟨fun _ => 7, fun _ => true⟩] []
      (fun _ => []) .INT32 ⟨.COLUMN, .INT32, 0, .OUTPUT⟩ 0 (some 1) ≠
      .error .assertFail :=
  ⟨rfl, fun hc => Except.noConfusion hc⟩

/-- C3 (amended): an input data reference with `table_source = OUTPUT` is
not asserted on; it is resolved exactly as if its table source were
RIGHT (the table-source test only compares against LEFT), in both the
nullable and the null-free instantiation. -/
theorem c3_output_resolved_as_right (left right : Table)
    (literals : List Int) (store : Store) (T : DType)
    (rt : DeviceDataReferenceType) (d : DType) (idx : Nat) (lri : Nat)
    (rri : Option Nat) :
    WithNulls.resolve_input left right literals store T ⟨rt, d, idx, .OUTPUT⟩
        lri rri =
      WithNulls.resolve_input left right literals store T ⟨rt, d, idx, .RIGHT⟩
        lri rri ∧
    NoNulls.resolve_input left right literals store T ⟨rt, d, idx, .OUTPUT⟩
        lri rri =
      NoNulls.resolve_input left right literals store T ⟨rt, d, idx, .RIGHT⟩
        lri rri := by
  constructor <;> cases rt <;> rfl

/-- C4 (code bug): a unary operator whose COLUMN operand names the RIGHT
table should read the right table at `right_row_index`; instead the
unary `operator()` forwards only `input_row_index` — in the left-row
position — so `resolve_input` dereferences the absent right row index:
evaluation aborts with undefined behaviour instead of producing the
right table's element. -/
theorem c4_unary_right_column_undefined :
    WithNulls.evaluate (fun _ _ v (s : List (Option Int)) => s ++ [v])
      [⟨fun _ => 0, fun _ => true⟩] [⟨fun _ => 7, fun _ => true⟩]
      ⟨[], [⟨.COLUMN, .INT32, 0, .RIGHT⟩, ⟨.COLUMN, .INT32, 0, .OUTPUT⟩],
        [.IDENTITY], [0, 1]⟩
      .EQUAL [] (fun _ => []) 0 1 0 = .error .undef := rfl

/-- C5: binary evaluation is a single-type dispatch — the functor is
instantiated at `(T, T)` where `T` is the left operand's `data_type`,
and the right operand's declared `data_type` has no effect on the step's
result. -/
theorem c5_single_type_dispatch (σ : Type)
    (setVal : DType → Nat → Option Int → σ → σ) (left right : Table)
    (literals : List Int) (cn : NullEquality)
    (lhs out : DeviceDataReference) (rt : DeviceDataReferenceType)
    (d d' : DType) (idx : Nat) (ts : TableReference) (lri rri ori : Nat)
    (op : AstOperator) (sink : σ) (store : Store) :
    WithNulls.single_dispatch_binary_operator lhs.data_type =
      (lhs.data_type, lhs.data_type) ∧
    WithNulls.binaryStep setVal left right literals cn lhs ⟨rt, d, idx, ts⟩
      out lri rri ori op sink store =
    WithNulls.binaryStep setVal left right literals cn lhs ⟨rt, d', idx, ts⟩
      out lri rri ori op sink store := by
  refine ⟨rfl, ?_⟩
  unfold WithNulls.binaryStep
  simp only [WithNulls.single_dispatch_binary_operator]
  cases WithNulls.resolve_input left right literals store lhs.data_type lhs
      lri (some rri) with
  | error e => rfl
  | ok typed_lhs =>
    rw [WithNulls.resolve_input_data_type_irrel left right literals store
      lhs.data_type rt d d' idx ts lri (some rri)]

/-- C6: a value written to an intermediate slot by `resolve_output` and
read back by `resolve_input` at the same (layout-compatible, at most
8-byte) element type is recovered exactly, validity included: the
byte-copy store then byte-copy load is the identity. -/
theorem c6_intermediate_roundtrip (σ : Type)
    (setVal : DType → Nat → Option Int → σ → σ) (sink : σ) (store : Store)
    (left right : Table) (literals : List Int) (dt : DType) (v : Option Int)
    (h : WithNulls.pnInRange dt v) (s orow lri : Nat) (rri : Option Nat)
    (ts : TableReference) :
    WithNulls.resolve_input left right literals
      (WithNulls.resolve_output setVal sink store dt ⟨.INTERMEDIATE, dt, s, ts⟩
        orow v).2
      dt ⟨.INTERMEDIATE, dt, s, ts⟩ lri rri = .ok v := by
  simp only [WithNulls.resolve_output, WithNulls.resolve_input]
  rw [if_neg (by decide :
    ¬(DeviceDataReferenceType.INTERMEDIATE = DeviceDataReferenceType.COLUMN))]
  dsimp only
  rw [updateStore_same, decodePN_encodePN dt v h]

theorem c6_intermediate_roundtrip_witness :
    WithNulls.pnInRange .INT32 (some (-5)) ∧
    WithNulls.resolve_input [] [] []
      (WithNulls.resolve_output (fun _ _ v (_ : Option Int) => v) none
        (fun _ => []) .INT32 ⟨.INTERMEDIATE, .INT32, 0, .LEFT⟩ 0 (some (-5))).2
      .INT32 ⟨.INTERMEDIATE, .INT32, 0, .LEFT⟩ 0 none = .ok (some (-5)) :=
  ⟨by decide,
   c6_intermediate_roundtrip (Option Int) (fun _ _ v _ => v) none (fun _ => [])
     [] [] [] .INT32 (some (-5)) (by decide) 0 0 0 none .LEFT⟩

/-- C7: the scalar sink stores the given value regardless of the index
argument (with matching element type): the state after `set_value(i, v)`
equals the state after `set_value(j, v)`; afterwards `is_valid` reports
the validity of `v`, and `value` returns its value when valid. -/
theorem c7_value_expression_result (T : DType) (i j : Nat)
    (v st st' : Option Int) (a : Int) :
    value_set_value T T i v st = .ok v ∧
    value_set_value T T i v st = value_set_value T T j v st' ∧
    value_is_valid v = v.isSome ∧
    value_value (some a) = a := by
  refine ⟨?_, ?_, rfl, rfl⟩ <;> simp [value_set_value]

/-- C8: with `has_nulls = false`, evaluation never inspects a validity
bit: two runs over tables that agree element-wise but have arbitrary,
different null masks produce identical results (sink state and
intermediate storage alike). -/
theorem c8_no_mask_inspection (σ : Type) (setVal : DType → Nat → Int → σ → σ)
    (left left' right right' : Table) (hL : sameVals left left')
    (hR : sameVals right right') (plan : ExpressionDeviceView) (sink : σ)
    (store : Store) (lri rri ori : Nat) :
    NoNulls.evaluate setVal left right plan sink store lri rri ori =
    NoNulls.evaluate setVal left' right' plan sink store lri rri ori :=
  NoNulls.evalOps_congr_vals σ setVal left left' right right' hL hR plan
    plan.operators 0 lri rri ori sink store

theorem c8_no_mask_inspection_witness :
    NoNulls.evaluate (fun _ _ v (s : List Int) => s ++ [v])
      [⟨fun _ => 1, fun _ => true⟩] [⟨fun _ => 2, fun _ => true⟩]
      ⟨[], [⟨.COLUMN, .INT32, 0, .LEFT⟩, ⟨.COLUMN, .INT32, 0, .RIGHT⟩,
        ⟨.COLUMN, .INT32, 0, .OUTPUT⟩], [.ADD], [0, 1, 2]⟩
      [] (fun _ => []) 0 0 0 =
    NoNulls.evaluate (fun _ _ v (s : List Int) => s ++ [v])
      [⟨fun _ => 1, fun _ => false⟩] [⟨fun _ => 2, fun _ => false⟩]
      ⟨[], [⟨.COLUMN, .INT32, 0, .LEFT⟩, ⟨.COLUMN, .INT32, 0, .RIGHT⟩,
        ⟨.COLUMN, .INT32, 0, .OUTPUT⟩], [.ADD], [0, 1, 2]⟩
      [] (fun _ => []) 0 0 0 :=
  c8_no_mask_inspection (List Int) (fun _ _ v s => s ++ [v])
    [⟨fun _ => 1, fun _ => true⟩] [⟨fun _ => 1, fun _ => false⟩]
    [⟨fun _ => 2, fun _ => true⟩] [⟨fun _ => 2, fun _ => false⟩]
    (by intro i; cases i <;> rfl) (by intro i; cases i <;> rfl)
    ⟨[], [⟨.COLUMN, .INT32, 0, .LEFT⟩, ⟨.COLUMN, .INT32, 0, .RIGHT⟩,
      ⟨.COLUMN, .INT32, 0, .OUTPUT⟩], [.ADD], [0, 1, 2]⟩
    [] (fun _ => []) 0 0 0

/-- C9: the single-row-index `evaluate(sink, i)` is definitionally the
three-index `evaluate(sink, i, i, i)` — identical sink state and
intermediate effects — in both instantiations. -/
theorem c9_evaluate_shorthand (σ τ : Type)
    (setValN : DType → Nat → Option Int → σ → σ)
    (setValF : DType → Nat → Int → τ → τ) (left right : Table)
    (plan : ExpressionDeviceView) (cn : NullEquality) (sinkN : σ) (sinkF : τ)
    (store store' : Store) (i : Nat) :
    WithNulls.evaluateRow setValN left right plan cn sinkN store i =
      WithNulls.evaluate setValN left right plan cn sinkN store i i i ∧
    NoNulls.evaluateRow setValF left right plan sinkF store' i =
      NoNulls.evaluate setValF left right plan sinkF store' i i i :=
  ⟨rfl, rfl⟩

/-- C10: for a plan containing no EQUAL operator, the evaluation result
is independent of the null-equality policy: evaluators differing only in
`compare_nulls` produce identical outputs. -/
theorem c10_policy_independence (σ : Type)
    (setVal : DType → Nat → Option Int → σ → σ) (left right : Table)
    (plan : ExpressionDeviceView) (sink : σ) (store : Store)
    (lri rri ori : Nat) (p p' : NullEquality)
    (h : AstOperator.EQUAL ∉ plan.operators) :
    WithNulls.evaluate setVal left right plan p sink store lri rri ori =
    WithNulls.evaluate setVal left right plan p' sink store lri rri ori :=
  WithNulls.evalOps_policy_irrel σ setVal left right plan p p'
    plan.operators h 0 lri rri ori sink store

theorem c10_policy_independence_witness :
    WithNulls.evaluate (fun _ _ v (s : List (Option Int)) => s ++ [v])
      [⟨fun _ => 1, fun _ => true⟩] [⟨fun _ => 2, fun _ => true⟩]
      ⟨[], [⟨.COLUMN, .INT32, 0, .LEFT⟩, ⟨.COLUMN, .INT32, 0, .RIGHT⟩,
        ⟨.COLUMN, .INT32, 0, .OUTPUT⟩], [.ADD], [0, 1, 2]⟩
      .EQUAL [] (fun _ => []) 0 0 0 =
    WithNulls.evaluate (fun _ _ v (s : List (Option Int)) => s ++ [v])
      [⟨fun _ => 1, fun _ => true⟩] [⟨fun _ => 2, fun _ => true⟩]
      ⟨[], [⟨.COLUMN, .INT32, 0, .LEFT⟩, ⟨.COLUMN, .INT32, 0, .RIGHT⟩,
        ⟨.COLUMN, .INT32, 0, .OUTPUT⟩], [.ADD], [0, 1, 2]⟩
      .UNEQUAL [] (fun _ => []) 0 0 0 :=
  c10_policy_independence (List (Option Int)) (fun _ _ v s => s ++ [v])
    [⟨fun _ => 1, fun _ => true⟩] [⟨fun _ => 2, fun _ => true⟩]
    ⟨[], [⟨.COLUMN, .INT32, 0, .LEFT⟩, ⟨.COLUMN, .INT32, 0, .RIGHT⟩,
      ⟨.COLUMN, .INT32, 0, .OUTPUT⟩], [.ADD], [0, 1, 2]⟩
    [] (fun _ => []) 0 0 0 .EQUAL .UNEQUAL (by decide)

end CudfAst
